import Mathlib

/-!
Verification development for the Ot2Rec metadata and process-list
orchestration engine.  The repository snapshot contains the packaging
layer (a singularity wrapper script, the conda `meta.yaml` entry-point
table, Dockerfiles); the orchestration core itself (Parameter Store,
Unit Registry, Stage Metadata Ledger, Process-List Builder, Stage
Runner, Pipeline Sequencer) is specified in the design document and is
modelled here from that specification.  Definitions translated from
files present in the snapshot say so in their doc comments; definitions
modelled from the specification are marked `Modelled from the spec:`.
-/

namespace Ot2Rec

/-! Basic data model (spec section 3). -/

/-- Modelled from the spec: a stable tilt-series identifier, unique within a
project. -/
abbrev UnitId := Nat

/-- Modelled from the spec: a configuration field name. -/
abbrev Field := String

/-- Modelled from the spec: a configuration value (kept abstract as a string). -/
abbrev Value := String

/-- Modelled from the spec: a structured configuration document, a partial
assignment of fields to values represented as an association list. -/
abbrev ConfigDoc := List (Field × Value)

/-- Look up a field in a configuration document (first binding wins). -/
def configGet (c : ConfigDoc) (f : Field) : Option Value :=
  match c.find? (fun p => decide (p.1 = f)) with
  | some p => some p.2
  | none => none

/-- Modelled from the spec: the status of a per-unit, per-stage record. -/
inductive Status where
  | pending
  | inProgress
  | completed
  | failed
deriving DecidableEq, Repr

/-- Modelled from the spec: the per-unit, per-stage outcome record
(`StageRecord`): status, output artifacts (populated only on completion),
error detail (present only on failure), and the exact resolved stage
configuration used for the attempt. -/
structure StageRecord where
  status : Status
  artifacts : List (String × String)
  errorDetail : Option String
  paramsSnapshot : ConfigDoc
deriving DecidableEq, Repr

/-- Modelled from the spec: the full set of current StageRecords for one
stage, indexed by unit id; the first binding for a unit id is the current,
authoritative record. -/
abbrev StageLedger := List (UnitId × StageRecord)

/-- The current StageRecord of a unit in a ledger, if any. -/
def ledgerGet (L : StageLedger) (u : UnitId) : Option StageRecord :=
  match L.find? (fun p => decide (p.1 = u)) with
  | some p => some p.2
  | none => none

/-- Modelled from the spec: `record(unit_id, ...)` creates or overwrites the
current StageRecord for a unit, leaving all other units' records intact. -/
def ledgerRecord (L : StageLedger) (u : UnitId) (r : StageRecord) : StageLedger :=
  (u, r) :: L.filter (fun p => decide (p.1 ≠ u))

/-- Modelled from the spec: the Unit Registry restricted to a stage, an
ordered sequence of unit ids in discovery order. -/
abbrev Registry := List UnitId

/-! Error taxonomy (spec section 7). -/

/-- Modelled from the spec: a `ConfigurationError` is an invalid or missing
required parameter, or an explicit process-list entry not present in the
eligible registry. -/
inductive ConfigurationError where
  | missingField (f : Field)
  | unknownUnit (u : UnitId)
deriving DecidableEq, Repr

/-! Stale-parameter invalidation (spec section 4.3). -/

/-- Fields appearing in either of two configuration documents, restricted to
the non-cosmetic ones. -/
def essentialFields (cosmetic : List Field) (a b : ConfigDoc) : List Field :=
  ((a.map Prod.fst) ++ (b.map Prod.fst)).filter (fun f => decide (f ∉ cosmetic))

/-- Modelled from the spec: a parameters snapshot is stale when it differs
from the freshly resolved configuration on some non-cosmetic field. -/
def isStale (cosmetic : List Field) (snap cfg : ConfigDoc) : Bool :=
  (essentialFields cosmetic snap cfg).any
    (fun f => decide (configGet snap f ≠ configGet cfg f))

/-- Modelled from the spec: the staleness check applied to one record — a
`completed` record whose snapshot is stale is demoted to `pending`; every
other record is left unchanged. -/
def demoteRecord (cosmetic : List Field) (cfg : ConfigDoc) (r : StageRecord) : StageRecord :=
  if r.status = Status.completed ∧ isStale cosmetic r.paramsSnapshot cfg = true then
    { r with status := Status.pending }
  else r

/-- Modelled from the spec: on `load`, the staleness check is applied to
every record of the persisted ledger. -/
def applyStalenessCheck (cosmetic : List Field) (cfg : ConfigDoc) (L : StageLedger) : StageLedger :=
  L.map (fun p => (p.1, demoteRecord cosmetic cfg p.2))

/-- Modelled from the spec: `load(stage)` returns the persisted ledger (an
empty ledger on first run) with the staleness check applied. -/
def load (stored : Option StageLedger) (cosmetic : List Field) (cfg : ConfigDoc) : StageLedger :=
  applyStalenessCheck cosmetic cfg (stored.getD [])

/-! Process-List Builder (spec section 4.4). -/

/-- Modelled from the spec: a unit must be (re)submitted when it has no
current StageRecord yet, or its current StageRecord is `pending` or
`failed`. -/
def needsRun (L : StageLedger) (u : UnitId) : Bool :=
  match ledgerGet L u with
  | none => true
  | some r => decide (r.status = Status.pending) || decide (r.status = Status.failed)

/-- Modelled from the spec: `build(stage, registry, ledger,
explicit_process_list)`.  Candidates are the registry units, restricted to
the explicit process list when that list is non-empty; a
`ConfigurationError` is raised when the explicit list references a unit not
in the registry; from the candidates, exactly those needing a (re)run are
selected, in registry order. -/
def build (registry : Registry) (L : StageLedger) (explicitList : List UnitId) :
    Except ConfigurationError (List UnitId) :=
  match explicitList.find? (fun u => decide (u ∉ registry)) with
  | some u => Except.error (ConfigurationError.unknownUnit u)
  | none =>
    if explicitList.isEmpty then
      Except.ok (registry.filter (needsRun L))
    else
      Except.ok ((registry.filter (fun u => decide (u ∈ explicitList))).filter (needsRun L))

/-! Stage Runner (spec section 4.5). -/

/-- Modelled from the spec: the result of one external-tool invocation — a
set of output artifacts on success, or a structured failure reason. -/
inductive ToolOutcome where
  | success (artifacts : List (String × String))
  | failure (kind message : String)

/-- Whether a tool outcome is a failure. -/
def ToolOutcome.isFailure : ToolOutcome → Bool
  | ToolOutcome.success _ => false
  | ToolOutcome.failure _ _ => true

/-- Modelled from the spec: the Tool Adapter interface,
`execute(unit, config) -> Result | Error`. -/
abbrev ToolAdapter := UnitId → ConfigDoc → ToolOutcome

/-- The terminal StageRecord the Runner writes for one unit: `completed`
with the produced artifacts on success, `failed` with the error detail on
failure; in both cases the snapshot is the configuration used. -/
def outcomeRecord (cfg : ConfigDoc) (adapter : ToolAdapter) (u : UnitId) : StageRecord :=
  match adapter u cfg with
  | ToolOutcome.success arts =>
    { status := Status.completed, artifacts := arts, errorDetail := none, paramsSnapshot := cfg }
  | ToolOutcome.failure k m =>
    { status := Status.failed, artifacts := [], errorDetail := some (k ++ ": " ++ m),
      paramsSnapshot := cfg }

/-- Modelled from the spec: processing of one unit — mark it `in_progress`
in the ledger, invoke the tool adapter, and record the outcome. -/
def processUnit (cfg : ConfigDoc) (adapter : ToolAdapter) (L : StageLedger) (u : UnitId) :
    StageLedger :=
  ledgerRecord
    (ledgerRecord L u
      { status := Status.inProgress, artifacts := [], errorDetail := none, paramsSnapshot := cfg })
    u (outcomeRecord cfg adapter u)

/-- Modelled from the spec: `run(stage, process_list, config, tool_adapter)`
processes every unit of the process list in order — a unit's failure never
aborts the stage — and returns the updated ledger together with the
aggregated failure report (the identifiers of the failed units). -/
def run (cfg : ConfigDoc) (adapter : ToolAdapter) (L : StageLedger) (plist : List UnitId) :
    StageLedger × List UnitId :=
  (plist.foldl (processUnit cfg adapter) L,
   plist.filter (fun u => (adapter u cfg).isFailure))

/-- The observable result of one full stage invocation: the ledger as
persisted at the end, the units that were dispatched to the tool adapter,
and either the aggregated failure report or the configuration error. -/
structure InvokeResult where
  ledger : StageLedger
  dispatched : List UnitId
  result : Except ConfigurationError (List UnitId)

/-- Modelled from the spec: a full stage invocation — the process list is
built first, and a configuration error aborts before any unit is dispatched,
leaving the ledger unchanged; otherwise the Runner processes the list. -/
def invoke (cfg : ConfigDoc) (adapter : ToolAdapter) (registry : Registry)
    (L : StageLedger) (explicitList : List UnitId) : InvokeResult :=
  match build registry L explicitList with
  | Except.error e => { ledger := L, dispatched := [], result := Except.error e }
  | Except.ok plist =>
    { ledger := (run cfg adapter L plist).1, dispatched := plist,
      result := Except.ok (run cfg adapter L plist).2 }

/-! Unit Registry restriction (spec section 4.2). -/

/-- Modelled from the spec: for stages after the first, the registry is
restricted to units whose immediately preceding stage has status
`completed` in that stage's ledger. -/
def nextRegistry (master : Registry) (prevLedger : StageLedger) : Registry :=
  master.filter (fun u =>
    match ledgerGet prevLedger u with
    | some r => decide (r.status = Status.completed)
    | none => false)

/-! Parameter Store (spec section 4.1). -/

/-- Modelled from the spec: the static description of a stage known to the
Parameter Store — its name, its built-in defaults, and its mandatory fields.
Built-in defaults never set a mandatory field (a required value is never
silently defaulted), which the development states as an explicit hypothesis
where it matters. -/
structure StageSpec where
  name : String
  defaults : ConfigDoc
  mandatory : List Field

/-- Modelled from the spec: the merged value of one field, taking the value
from the highest-precedence layer that sets it, in the order (lowest to
highest) built-in stage defaults, master project config, prior persisted
stage config, explicit overrides. -/
def mergedGet (defaults master prior overrides : ConfigDoc) (f : Field) : Option Value :=
  match configGet overrides f with
  | some v => some v
  | none =>
    match configGet prior f with
    | some v => some v
    | none =>
      match configGet master f with
      | some v => some v
      | none => configGet defaults f

/-- Every field set by at least one of the four layers, deduplicated. -/
def allFields (defaults master prior overrides : ConfigDoc) : List Field :=
  ((defaults ++ master ++ prior ++ overrides).map Prod.fst).dedup

/-- Modelled from the spec: `resolve(stage, master_config, prior_config,
overrides) -> ProjectConfig` merges the four layers by precedence and fails
with a `ConfigurationError` naming the field when a mandatory field is
missing after the merge. -/
def resolve (stage : StageSpec) (master prior overrides : ConfigDoc) :
    Except ConfigurationError ConfigDoc :=
  match stage.mandatory.find?
      (fun f => (mergedGet stage.defaults master prior overrides f).isNone) with
  | some f => Except.error (ConfigurationError.missingField f)
  | none =>
    Except.ok ((allFields stage.defaults master prior overrides).filterMap
      (fun f => (mergedGet stage.defaults master prior overrides f).map (fun v => (f, v))))

/-! Pipeline Sequencer (spec section 4.6). -/

/-- Modelled from the spec: what one stage invocation needs from the
sequencer's point of view — the resolved stage configuration and the tool
adapter. -/
structure StageSetup where
  cfg : ConfigDoc
  adapter : ToolAdapter

/-- Modelled from the spec: the per-stage summary produced by `run_all` — a
stage skipped (with a warning) because its input registry was empty, or a
stage that ran, with its aggregated failure report and candidate count. -/
inductive StageSummary where
  | skippedEmptyRegistry (warning : String)
  | ran (failedIds : List UnitId) (total : Nat)

/-- The warning attached to a skipped stage. -/
def emptyRegistryWarning : String := "input registry is empty; stage skipped"

/-- Modelled from the spec: `run_all(stage_sequence, master_config)` on a
fresh project — stages execute strictly in declared order, each over the
registry derived from its predecessor's ledger; a stage with an empty input
registry is skipped with a warning; the sequence stops early exactly when a
stage's aggregated failure count equals its full candidate set. -/
def run_all (stages : List StageSetup) (registry : Registry) : List StageSummary :=
  match stages with
  | [] => []
  | s :: rest =>
    if registry.isEmpty then
      StageSummary.skippedEmptyRegistry emptyRegistryWarning :: run_all rest registry
    else if (run s.cfg s.adapter [] registry).2.length = registry.length then
      [StageSummary.ran (run s.cfg s.adapter [] registry).2 registry.length]
    else
      StageSummary.ran (run s.cfg s.adapter [] registry).2 registry.length ::
        run_all rest (nextRegistry registry (run s.cfg s.adapter [] registry).1)

/-! CLI-level contract (spec section 6 and the conda entry-point table). -/

/-- Whether a stage summary counts as fully successful. -/
def summaryOk : StageSummary → Bool
  | StageSummary.skippedEmptyRegistry _ => true
  | StageSummary.ran fails _ => fails.isEmpty

/-- Modelled from the spec: the exit code of a `run_all` invocation — 0 on
full success, non-zero when any unit in the final stage ends in `failed`. -/
def exitCode (summaries : List StageSummary) : Nat :=
  match summaries.getLast? with
  | some s => if summaryOk s then 0 else 1
  | none => 0

/-- The conda entry-point table of the package, transcribed from
`meta.yaml` (`build.entry_points`). -/
def entryPoints : List (String × String) :=
  [("o2r.new", "Ot2Rec.main:new_proj"),
   ("o2r.mc.new", "Ot2Rec.motioncorr:create_yaml"),
   ("o2r.mc.run", "Ot2Rec.motioncorr:run"),
   ("o2r.ctffind.new", "Ot2Rec.ctffind:create_yaml"),
   ("o2r.ctffind.run", "Ot2Rec.ctffind:run"),
   ("o2r.ctfsim.run", "Ot2Rec.ctfsim:run"),
   ("o2r.imod.align.new", "Ot2Rec.align:create_yaml"),
   ("o2r.imod.align.stacks", "Ot2Rec.align:imod_create_stacks"),
   ("o2r.imod.align.run", "Ot2Rec.align:imod_standard_align"),
   ("o2r.imod.align.new_ext", "Ot2Rec.align:create_yaml_stacked"),
   ("o2r.imod.align.run_ext", "Ot2Rec.align:imod_align_ext"),
   ("o2r.imod.align.stats", "Ot2Rec.align:get_align_stats"),
   ("o2r.imod.recon.new", "Ot2Rec.recon:create_yaml"),
   ("o2r.imod.recon.run", "Ot2Rec.recon:run"),
   ("o2r.savu.recon.new", "Ot2Rec.savurecon:create_yaml"),
   ("o2r.savu.recon.run", "Ot2Rec.savurecon:run"),
   ("o2r.aretomo.new", "Ot2Rec.aretomo:create_yaml"),
   ("o2r.aretomo.run", "Ot2Rec.aretomo:run"),
   ("o2r.deconv.run", "Ot2Rec.rlf_deconv:run"),
   ("o2r.cleanup", "Ot2Rec.main:cleanup"),
   ("o2r.runall", "Ot2Rec.main:run_all")]

/-- Whether the package declares an entry point with the given name. -/
def hasEntry (n : String) : Bool :=
  entryPoints.any (fun p => decide (p.1 = n))

/-- The pipeline stage names appearing in the entry-point table. -/
def stageNames : List String :=
  ["mc", "ctffind", "ctfsim", "imod.align", "imod.recon", "savu.recon", "aretomo", "deconv"]

/-- Whether a stage has a configuration-creation (`new`) subcommand. -/
def stageHasNew (s : String) : Bool :=
  hasEntry ("o2r." ++ s ++ ".new")

/-- Whether a stage has an execution (`run`) subcommand. -/
def stageHasRun (s : String) : Bool :=
  hasEntry ("o2r." ++ s ++ ".run")

/-- Whether one string starts with another, on the underlying character
lists. -/
def strStarts (pre n : String) : Bool :=
  decide (n.data.take pre.data.length = pre.data)

/-- The entry-point names belonging to a given stage. -/
def stageSubcommands (s : String) : List String :=
  (entryPoints.map Prod.fst).filter (fun n => strStarts ("o2r." ++ s ++ ".") n)

/-- The claimed CLI shape for one stage: exactly one configuration-creation
subcommand and one execution subcommand, and nothing else. -/
def stageHasExactPair (s : String) : Bool :=
  decide (stageSubcommands s = ["o2r." ++ s ++ ".new", "o2r." ++ s ++ ".run"])

/-! Singularity wrapper script (transcribed from the repository's
container wrapper). -/

/-- The error message printed by the wrapper on a bad argument count. -/
def wrapperErrMsg : String :=
  "Incorrect number of arguments, see https://github.com/rosalindfranklininstitute/Ot2Rec for command details"

/-- What the wrapper script does: either invoke `singularity run` with the
forwarded arguments, or print an error and exit with the given status. -/
inductive WrapperAction where
  | runSingularity (forwarded : List String)
  | errorExit (message : String) (code : Nat)
deriving DecidableEq, Repr

/-- Transcribed from the wrapper script: with exactly 2 arguments it runs
`singularity run ... $1 $2`; with exactly 3 it runs
`singularity run ... $1 $2 $3`; otherwise it prints an error pointing at
the command documentation and exits with status 1. -/
def singularityWrapper (args : List String) : WrapperAction :=
  if args.length = 2 then WrapperAction.runSingularity args
  else if args.length = 3 then WrapperAction.runSingularity args
  else WrapperAction.errorExit wrapperErrMsg 1

/-! Derived observations and concrete examples used in statements. -/

/-- The number of records of a ledger carrying a given status. -/
def countStatus (L : StageLedger) (s : Status) : Nat :=
  (L.filter (fun p => decide (p.2.status = s))).length

/-- A concrete adapter for witnesses: unit 0 fails, every other unit
succeeds. -/
def exampleAdapter : ToolAdapter :=
  fun u _ =>
    if u = 0 then ToolOutcome.failure "timeout" "tool timed out"
    else ToolOutcome.success [("corrected_stack", "out.mrc")]

/-- A concrete adapter for witnesses: every unit succeeds. -/
def allSuccessAdapter : ToolAdapter :=
  fun _ _ => ToolOutcome.success []

/-- A concrete adapter for witnesses: every unit fails. -/
def allFailAdapter : ToolAdapter :=
  fun _ _ => ToolOutcome.failure "crash" "tool crashed"

/-- A concrete completed StageRecord for witnesses. -/
def exampleCompletedRecord : StageRecord :=
  { status := Status.completed, artifacts := [], errorDetail := none, paramsSnapshot := [] }

/-- A concrete completed StageRecord whose snapshot sets a pixel size. -/
def examplePxRecord : StageRecord :=
  { status := Status.completed, artifacts := [], errorDetail := none,
    paramsSnapshot := [("px", "1")] }

/-- A concrete stage description for witnesses: one default field and one
mandatory field. -/
def exampleStage : StageSpec :=
  { name := "mc", defaults := [("d", "0")], mandatory := ["px"] }

/-- The configuration `resolve` produces for `exampleStage` with master
config setting px to 7 and an override setting px to 9. -/
def exampleResolved : ConfigDoc := [("d", "0"), ("px", "9")]

/-- A concrete stage setup for witnesses: empty configuration, all units
succeed. -/
def exampleSuccessSetup : StageSetup :=
  { cfg := [], adapter := allSuccessAdapter }

/-- A concrete stage setup for witnesses: empty configuration, all units
fail. -/
def exampleFailSetup : StageSetup :=
  { cfg := [], adapter := allFailAdapter }

/-! Helper lemmas about ledger lookup and update. -/

/-- Ledger lookup on a cons cell. -/
theorem ledgerGet_cons (v : UnitId) (r : StageRecord) (L : StageLedger) (u : UnitId) :
    ledgerGet ((v, r) :: L) u = if v = u then some r else ledgerGet L u := by
  by_cases h : v = u
  · simp [ledgerGet, List.find?_cons, h]
  · simp [ledgerGet, List.find?_cons, h]

/-- A ledger has no record for a unit exactly when no entry carries its id. -/
theorem ledgerGet_eq_none_iff (L : StageLedger) (u : UnitId) :
    ledgerGet L u = none ↔ ∀ p ∈ L, p.1 ≠ u := by
  induction L with
  | nil => simp [ledgerGet]
  | cons p rest ih =>
    obtain ⟨v, r⟩ := p
    by_cases h : v = u
    · subst h
      simp [ledgerGet_cons]
    · simp [ledgerGet_cons, h, ih]

/-- A successful ledger lookup comes from an entry of the ledger. -/
theorem ledgerGet_some_mem (L : StageLedger) (u : UnitId) (r : StageRecord)
    (h : ledgerGet L u = some r) : (u, r) ∈ L := by
  induction L with
  | nil => simp [ledgerGet] at h
  | cons p rest ih =>
    obtain ⟨v, s⟩ := p
    rw [ledgerGet_cons] at h
    by_cases hv : v = u
    · rw [if_pos hv] at h
      cases h
      subst hv
      exact List.mem_cons_self _ _
    · rw [if_neg hv] at h
      exact List.mem_cons_of_mem _ (ih h)

/-- Dropping the entries of one unit leaves every other unit's lookup
unchanged. -/
theorem ledgerGet_filter_ne (L : StageLedger) (u v : UnitId) (h : v ≠ u) :
    ledgerGet (L.filter (fun p => decide (p.1 ≠ u))) v = ledgerGet L v := by
  induction L with
  | nil => rfl
  | cons p rest ih =>
    obtain ⟨w, r⟩ := p
    rw [List.filter_cons]
    by_cases hw : w = u
    · rw [if_neg (by simp [hw])]
      rw [ih, ledgerGet_cons, if_neg (fun hh => h (hw ▸ hh.symm))]
    · rw [if_pos (by simp [hw])]
      rw [ledgerGet_cons, ledgerGet_cons, ih]

/-- Recording a unit's outcome makes it the unit's current record. -/
theorem ledgerGet_record_self (L : StageLedger) (u : UnitId) (r : StageRecord) :
    ledgerGet (ledgerRecord L u r) u = some r := by
  simp [ledgerRecord, ledgerGet_cons]

/-- Recording a unit's outcome leaves every other unit's record intact. -/
theorem ledgerGet_record_other (L : StageLedger) (u v : UnitId) (r : StageRecord)
    (h : v ≠ u) : ledgerGet (ledgerRecord L u r) v = ledgerGet L v := by
  rw [ledgerRecord, ledgerGet_cons, if_neg (fun hh => h hh.symm)]
  exact ledgerGet_filter_ne L u v h

/-! Helper lemmas about the Stage Runner. -/

/-- Processing a unit installs its outcome record. -/
theorem ledgerGet_processUnit_self (cfg : ConfigDoc) (adapter : ToolAdapter)
    (L : StageLedger) (u : UnitId) :
    ledgerGet (processUnit cfg adapter L u) u = some (outcomeRecord cfg adapter u) := by
  rw [processUnit]
  exact ledgerGet_record_self _ _ _

/-- Processing a unit leaves every other unit's record intact. -/
theorem ledgerGet_processUnit_other (cfg : ConfigDoc) (adapter : ToolAdapter)
    (L : StageLedger) (u v : UnitId) (h : u ≠ v) :
    ledgerGet (processUnit cfg adapter L v) u = ledgerGet L u := by
  rw [processUnit, ledgerGet_record_other _ _ _ _ h, ledgerGet_record_other _ _ _ _ h]

/-- The record a Runner pass leaves for each unit: the outcome record for
every unit of the process list, and the prior record for every other
unit. -/
theorem foldl_processUnit_ledgerGet (cfg : ConfigDoc) (adapter : ToolAdapter) :
    ∀ (plist : List UnitId) (L : StageLedger) (u : UnitId),
      ledgerGet (plist.foldl (processUnit cfg adapter) L) u =
        if u ∈ plist then some (outcomeRecord cfg adapter u) else ledgerGet L u := by
  intro plist
  induction plist with
  | nil => intro L u; simp
  | cons v rest ih =>
    intro L u
    rw [List.foldl_cons, ih]
    by_cases hu : u ∈ rest
    · rw [if_pos hu, if_pos (List.mem_cons_of_mem _ hu)]
    · by_cases huv : u = v
      · subst huv
        rw [if_neg hu, if_pos (List.mem_cons_self _ _),
          ledgerGet_processUnit_self]
      · rw [if_neg hu, if_neg (by simp [huv, hu]),
          ledgerGet_processUnit_other cfg adapter L u v huv]

/-- Processing a fresh unit prepends its outcome record. -/
theorem processUnit_eq_cons (cfg : ConfigDoc) (adapter : ToolAdapter)
    (L : StageLedger) (u : UnitId) (h : ledgerGet L u = none) :
    processUnit cfg adapter L u = (u, outcomeRecord cfg adapter u) :: L := by
  have hall := (ledgerGet_eq_none_iff L u).mp h
  have hfilter : L.filter (fun p => decide (p.1 ≠ u)) = L :=
    List.filter_eq_self.mpr (fun p hp => by simpa using hall p hp)
  rw [processUnit, ledgerRecord, ledgerRecord, hfilter, List.filter_cons,
    if_neg (by simp), hfilter]

/-- Over distinct fresh units, a Runner pass prepends the outcome records
in reverse process-list order. -/
theorem foldl_processUnit_eq_append (cfg : ConfigDoc) (adapter : ToolAdapter) :
    ∀ (plist : List UnitId) (L : StageLedger), plist.Nodup →
      (∀ u ∈ plist, ledgerGet L u = none) →
      plist.foldl (processUnit cfg adapter) L =
        plist.reverse.map (fun u => (u, outcomeRecord cfg adapter u)) ++ L := by
  intro plist
  induction plist with
  | nil => intro L _ _; simp
  | cons v rest ih =>
    intro L hnd hfresh
    rw [List.foldl_cons,
      processUnit_eq_cons cfg adapter L v (hfresh v (List.mem_cons_self _ _))]
    rw [ih ((v, outcomeRecord cfg adapter v) :: L) (List.nodup_cons.mp hnd).2 ?fresh]
    · simp
    case fresh =>
      intro u hu
      rw [ledgerGet_cons,
        if_neg (fun (he : v = u) => (List.nodup_cons.mp hnd).1 (he.symm ▸ hu))]
      exact hfresh u (List.mem_cons_of_mem _ hu)

/-- Filtering a mapped list has the length of filtering by the composed
predicate. -/
theorem length_filter_map_eq {α β : Type} (g : α → β) (q : β → Bool) (l : List α) :
    ((l.map g).filter q).length = (l.filter (fun a => q (g a))).length := by
  induction l with
  | nil => rfl
  | cons a rest ih =>
    rw [List.map_cons, List.filter_cons, List.filter_cons]
    by_cases h : q (g a)
    · rw [if_pos h, if_pos h, List.length_cons, List.length_cons, ih]
    · rw [if_neg h, if_neg h, ih]

/-- A filter and its complement partition a list's length. -/
theorem length_filter_add_length_filter_not {α : Type} (p : α → Bool) (l : List α) :
    (l.filter p).length + (l.filter (fun a => !(p a))).length = l.length := by
  induction l with
  | nil => rfl
  | cons a rest ih =>
    rw [List.filter_cons, List.filter_cons]
    by_cases h : p a
    · rw [if_pos h, if_neg (by simp [h])]
      simpa using by omega
    · rw [if_neg h, if_pos (by simp [h])]
      simp only [List.length_cons]
      omega

/-- The outcome record is `failed` exactly when the tool invocation
failed. -/
theorem outcomeRecord_status_failed (cfg : ConfigDoc) (adapter : ToolAdapter) (u : UnitId) :
    decide ((outcomeRecord cfg adapter u).status = Status.failed) = (adapter u cfg).isFailure := by
  rw [outcomeRecord]
  cases adapter u cfg <;> simp [ToolOutcome.isFailure]

/-- The outcome record is `completed` exactly when the tool invocation
succeeded. -/
theorem outcomeRecord_status_completed (cfg : ConfigDoc) (adapter : ToolAdapter) (u : UnitId) :
    decide ((outcomeRecord cfg adapter u).status = Status.completed) =
      !((adapter u cfg).isFailure) := by
  rw [outcomeRecord]
  cases adapter u cfg <;> simp [ToolOutcome.isFailure]

/-- A unit whose current record is an outcome record needs a re-run exactly
when that outcome was a failure. -/
theorem needsRun_outcome (cfg : ConfigDoc) (adapter : ToolAdapter) (L : StageLedger)
    (u : UnitId) (h : ledgerGet L u = some (outcomeRecord cfg adapter u)) :
    needsRun L u = (adapter u cfg).isFailure := by
  rw [needsRun, h, outcomeRecord]
  cases adapter u cfg <;> simp [ToolOutcome.isFailure]

/-- With no explicit process list, `build` selects the registry units
needing a run, in registry order. -/
theorem build_nil_elist (registry : Registry) (L : StageLedger) :
    build registry L [] = Except.ok (registry.filter (needsRun L)) := rfl

/-- Whatever `build` returns is an eligible registry unit that needs a
run. -/
theorem mem_build_ok (registry : Registry) (L : StageLedger) (el out : List UnitId)
    (h : build registry L el = Except.ok out) (u : UnitId) (hu : u ∈ out) :
    u ∈ registry ∧ needsRun L u = true := by
  rw [build] at h
  cases hf : el.find? (fun v => decide (v ∉ registry)) with
  | some v => rw [hf] at h; exact absurd h (by simp)
  | none =>
    rw [hf] at h
    by_cases he : el.isEmpty
    · rw [if_pos he] at h
      cases h
      exact ⟨(List.mem_filter.mp hu).1, (List.mem_filter.mp hu).2⟩
    · rw [if_neg he] at h
      cases h
      have h1 := List.mem_filter.mp hu
      exact ⟨(List.mem_filter.mp h1.1).1, h1.2⟩

/-! Helper lemmas about staleness. -/

/-- A snapshot equal to the current configuration is never stale. -/
theorem isStale_self (cosmetic : List Field) (c : ConfigDoc) :
    isStale cosmetic c c = false := by
  rw [isStale]
  simp

/-- Lookup commutes with a value-only map over a ledger. -/
theorem ledgerGet_map_value (g : StageRecord → StageRecord) :
    ∀ (L : StageLedger) (u : UnitId),
      ledgerGet (L.map (fun p => (p.1, g p.2))) u = (ledgerGet L u).map g := by
  intro L
  induction L with
  | nil => intro u; rfl
  | cons p rest ih =>
    intro u
    obtain ⟨v, r⟩ := p
    rw [List.map_cons]
    by_cases h : v = u
    · simp [ledgerGet_cons, h]
    · simp [ledgerGet_cons, h, ih]

/-- The staleness check maps every record through `demoteRecord` and
touches nothing else. -/
theorem ledgerGet_applyStalenessCheck (cosmetic : List Field) (cfg : ConfigDoc)
    (L : StageLedger) (u : UnitId) :
    ledgerGet (applyStalenessCheck cosmetic cfg L) u =
      (ledgerGet L u).map (demoteRecord cosmetic cfg) :=
  ledgerGet_map_value (demoteRecord cosmetic cfg) L u

/-- A record that is not a stale completed record is left unchanged by the
staleness check. -/
theorem demoteRecord_eq_self (cosmetic : List Field) (cfg : ConfigDoc) (r : StageRecord)
    (h : r.status = Status.completed → isStale cosmetic r.paramsSnapshot cfg = false) :
    demoteRecord cosmetic cfg r = r := by
  rw [demoteRecord]
  by_cases hc : r.status = Status.completed
  · rw [if_neg (by simp [hc, h hc])]
  · rw [if_neg (by simp [hc])]

/-- A stale completed record is demoted to `pending`. -/
theorem demoteRecord_stale (cosmetic : List Field) (cfg : ConfigDoc) (r : StageRecord)
    (hc : r.status = Status.completed) (hs : isStale cosmetic r.paramsSnapshot cfg = true) :
    demoteRecord cosmetic cfg r = { r with status := Status.pending } := by
  rw [demoteRecord, if_pos ⟨hc, hs⟩]

/-! Helper lemmas about the Parameter Store. -/

/-- Configuration lookup on a cons cell. -/
theorem configGet_cons (g : Field) (v : Value) (c : ConfigDoc) (f : Field) :
    configGet ((g, v) :: c) f = if g = f then some v else configGet c f := by
  by_cases h : g = f
  · simp [configGet, List.find?_cons, h]
  · simp [configGet, List.find?_cons, h]

/-- A field with a value in a document is one of the document's keys. -/
theorem configGet_some_mem_keys (c : ConfigDoc) (f : Field) (v : Value)
    (h : configGet c f = some v) : f ∈ c.map Prod.fst := by
  induction c with
  | nil => simp [configGet] at h
  | cons p rest ih =>
    obtain ⟨g, w⟩ := p
    rw [configGet_cons] at h
    by_cases hg : g = f
    · rw [List.map_cons]
      exact hg ▸ List.mem_cons_self _ _
    · rw [if_neg hg] at h
      exact List.mem_cons_of_mem _ (ih h)

/-- Lookup in a document built from a list of fields through a partial
valuation. -/
theorem configGet_filterMap (m : Field → Option Value) :
    ∀ (fields : List Field) (f : Field),
      configGet (fields.filterMap (fun g => (m g).map (fun v => (g, v)))) f =
        if f ∈ fields then m f else none := by
  intro fields
  induction fields with
  | nil => intro f; simp [configGet]
  | cons g rest ih =>
    intro f
    rw [List.filterMap_cons]
    cases hm : m g with
    | none =>
      rw [Option.map_none', ih]
      by_cases hf : f = g
      · subst hf
        by_cases hrest : f ∈ rest
        · rw [if_pos hrest, if_pos (List.mem_cons_self _ _)]
        · rw [if_neg hrest, if_pos (List.mem_cons_self _ _), hm]
      · by_cases hrest : f ∈ rest
        · rw [if_pos hrest, if_pos (List.mem_cons_of_mem _ hrest)]
        · rw [if_neg hrest, if_neg (by simp [hf, hrest])]
    | some v =>
      rw [Option.map_some', configGet_cons]
      by_cases hg : g = f
      · subst hg
        rw [if_pos rfl, if_pos (List.mem_cons_self _ _), hm]
      · rw [if_neg hg, ih]
        by_cases hrest : f ∈ rest
        · rw [if_pos hrest, if_pos (List.mem_cons_of_mem _ hrest)]
        · rw [if_neg hrest,
            if_neg (by simp [List.mem_cons, hrest]; exact fun he => hg he.symm)]

/-- A field the merge assigns a value to is among the layered documents'
fields. -/
theorem mergedGet_some_mem_allFields (d m p o : ConfigDoc) (f : Field) (v : Value)
    (h : mergedGet d m p o f = some v) : f ∈ allFields d m p o := by
  rw [allFields, List.mem_dedup]
  rw [mergedGet] at h
  simp only [List.map_append, List.mem_append]
  cases ho : configGet o f with
  | some w =>
    have hk := configGet_some_mem_keys o f w ho
    tauto
  | none =>
    rw [ho] at h
    cases hp : configGet p f with
    | some w =>
      have hk := configGet_some_mem_keys p f w hp
      tauto
    | none =>
      rw [hp] at h
      cases hm : configGet m f with
      | some w =>
        have hk := configGet_some_mem_keys m f w hm
        tauto
      | none =>
        rw [hm] at h
        have hk := configGet_some_mem_keys d f v h
        tauto

/-- When `resolve` succeeds, every field of the result carries its merged
value. -/
theorem resolve_ok_configGet (stage : StageSpec) (master prior overrides cfg : ConfigDoc)
    (h : resolve stage master prior overrides = Except.ok cfg) (f : Field) :
    configGet cfg f = mergedGet stage.defaults master prior overrides f := by
  rw [resolve] at h
  cases hf : stage.mandatory.find?
      (fun g => (mergedGet stage.defaults master prior overrides g).isNone) with
  | some g => rw [hf] at h; exact absurd h (by simp)
  | none =>
    rw [hf] at h
    cases h
    rw [configGet_filterMap]
    by_cases hmem : f ∈ allFields stage.defaults master prior overrides
    · rw [if_pos hmem]
    · rw [if_neg hmem]
      cases hv : mergedGet stage.defaults master prior overrides f with
      | none => rfl
      | some v =>
        exact absurd (mergedGet_some_mem_allFields _ _ _ _ _ _ hv) hmem

/-- When `resolve` succeeds, no mandatory field is missing after the
merge. -/
theorem resolve_ok_no_missing (stage : StageSpec) (master prior overrides cfg : ConfigDoc)
    (h : resolve stage master prior overrides = Except.ok cfg) :
    ∀ f ∈ stage.mandatory, ∃ v, mergedGet stage.defaults master prior overrides f = some v := by
  intro f hf
  rw [resolve] at h
  cases hfind : stage.mandatory.find?
      (fun g => (mergedGet stage.defaults master prior overrides g).isNone) with
  | some g => rw [hfind] at h; exact absurd h (by simp)
  | none =>
    have := List.find?_eq_none.mp hfind f hf
    cases hv : mergedGet stage.defaults master prior overrides f with
    | none => exact absurd (by simp [hv]) this
    | some v => exact ⟨v, rfl⟩

/-! Helper lemmas about the Pipeline Sequencer. -/

/-- The last element of a list, when it exists, belongs to the list. -/
theorem mem_of_getLast_opt {α : Type} :
    ∀ {l : List α} {a : α}, l.getLast? = some a → a ∈ l := by
  intro l
  induction l with
  | nil => intro a h; simp at h
  | cons x rest ih =>
    intro a h
    cases rest with
    | nil =>
      simp only [List.getLast?_singleton, Option.some.injEq] at h
      exact h ▸ List.mem_singleton_self _
    | cons y t =>
      rw [List.getLast?_cons_cons] at h
      exact List.mem_cons_of_mem _ (ih h)

/-- When every adapter of the sequence always succeeds, every summary
`run_all` produces is fully successful. -/
theorem run_all_summaryOk (stages : List StageSetup)
    (hs : ∀ s ∈ stages, ∀ (u : UnitId) (c : ConfigDoc), (s.adapter u c).isFailure = false) :
    ∀ (registry : Registry), ∀ x ∈ run_all stages registry, summaryOk x = true := by
  induction stages with
  | nil => intro reg x hx; simp [run_all] at hx
  | cons s rest ih =>
    intro reg x hx
    have hrest : ∀ t ∈ rest, ∀ (u : UnitId) (c : ConfigDoc), (t.adapter u c).isFailure = false :=
      fun t ht => hs t (List.mem_cons_of_mem _ ht)
    have hfails : (run s.cfg s.adapter [] reg).2 = [] := by
      rw [run]
      exact List.filter_eq_nil_iff.mpr
        (fun u _ => by simp [hs s (List.mem_cons_self _ _) u s.cfg])
    rw [run_all] at hx
    by_cases hre : reg.isEmpty
    · rw [if_pos hre] at hx
      rcases List.mem_cons.mp hx with hx | hx
      · rw [hx]; rfl
      · exact ih hrest reg x hx
    · rw [if_neg hre] at hx
      have hlen : (run s.cfg s.adapter [] reg).2.length ≠ reg.length := by
        rw [hfails]
        intro hh
        exact hre (List.isEmpty_iff.mpr (List.length_eq_zero.mp hh.symm))
      rw [if_neg hlen] at hx
      rcases List.mem_cons.mp hx with hx | hx
      · rw [hx, summaryOk, hfails]
        rfl
      · exact ih hrest _ x hx

/-! Claim theorems. -/

/-- Claim C10: for every invocation of the container wrapper script, an
argument count of exactly 2 or exactly 3 makes the script invoke
`singularity run` forwarding the arguments unchanged and in order; any
other argument count never invokes singularity, prints an error message
pointing at the command documentation, and exits with status 1. -/
theorem c10_wrapper_argument_guard (args : List String) :
    (args.length = 2 ∨ args.length = 3 →
      singularityWrapper args = WrapperAction.runSingularity args) ∧
    (args.length ≠ 2 → args.length ≠ 3 →
      singularityWrapper args = WrapperAction.errorExit wrapperErrMsg 1) := by
  constructor
  · intro h
    rw [singularityWrapper]
    rcases h with h | h
    · rw [if_pos h]
    · by_cases h2 : args.length = 2
      · rw [if_pos h2]
      · rw [if_neg h2, if_pos h]
  · intro h2 h3
    rw [singularityWrapper, if_neg h2, if_neg h3]

/-- Witness for C10 at concrete argument lists of length 2 and of
length 1. -/
theorem c10_wrapper_argument_guard_witness :
    singularityWrapper ["o2r.mc.run", "proj"] =
      WrapperAction.runSingularity ["o2r.mc.run", "proj"] ∧
    singularityWrapper ["o2r.mc.run"] = WrapperAction.errorExit wrapperErrMsg 1 :=
  ⟨(c10_wrapper_argument_guard ["o2r.mc.run", "proj"]).1 (Or.inl rfl),
   (c10_wrapper_argument_guard ["o2r.mc.run"]).2 (by decide) (by decide)⟩

/-- Claim C9, counterexample: the entry-point table does not give every
pipeline stage name exactly one new/run subcommand pair — `ctfsim` and
`deconv` expose only a run subcommand, and `imod.align` exposes further
subcommands beyond the pair, such as `stacks`. -/
theorem c9_cli_contract_counterexample :
    stageHasRun "ctfsim" = true ∧ stageHasExactPair "ctfsim" = false ∧
    stageHasRun "deconv" = true ∧ stageHasExactPair "deconv" = false ∧
    stageHasRun "imod.align" = true ∧ stageHasExactPair "imod.align" = false ∧
    hasEntry "o2r.imod.align.stacks" = true := by
  decide

/-- Claim C9 (amended): the entry-point table declares unique subcommand
names; the stages mc, ctffind, imod.recon, savu.recon and aretomo each
expose exactly one configuration-creation/execution subcommand pair; every
stage name with a configuration-creation subcommand also has an execution
subcommand; and (modelled from the spec) a run-all invocation exits with
code 0 on full success and non-zero when a unit of the final executed
stage ends in `failed`. -/
theorem c9_cli_contract_amended :
    (entryPoints.map Prod.fst).Nodup ∧
    (∀ s ∈ ["mc", "ctffind", "imod.recon", "savu.recon", "aretomo"],
      stageHasExactPair s = true) ∧
    (∀ s ∈ stageNames, stageHasNew s = true → stageHasRun s = true) ∧
    (∀ (stages : List StageSetup) (registry : Registry),
      (∀ s ∈ stages, ∀ (u : UnitId) (c : ConfigDoc), (s.adapter u c).isFailure = false) →
      exitCode (run_all stages registry) = 0) ∧
    (∀ (stages : List StageSetup) (registry : Registry) (fails : List UnitId) (n : Nat),
      (run_all stages registry).getLast? = some (StageSummary.ran fails n) →
      fails ≠ [] → exitCode (run_all stages registry) ≠ 0) := by
  refine ⟨by decide, by decide, by decide, ?_, ?_⟩
  · intro stages reg hs
    cases hlast : (run_all stages reg).getLast? with
    | none => rw [exitCode, hlast]
    | some x =>
      rw [exitCode, hlast]
      exact if_pos (run_all_summaryOk stages hs reg x (mem_of_getLast_opt hlast))
  · intro stages reg fails n hlast hne
    rw [exitCode, hlast]
    have hok : summaryOk (StageSummary.ran fails n) = false := by
      cases fails with
      | nil => exact absurd rfl hne
      | cons a t => rfl
    show (if summaryOk (StageSummary.ran fails n) = true then 0 else 1) ≠ 0
    rw [hok]
    simp

/-- Witness for C9 (amended) at the stage name mc and a one-stage
all-success pipeline. -/
theorem c9_cli_contract_amended_witness :
    stageHasRun "mc" = true ∧ exitCode (run_all [exampleSuccessSetup] [0]) = 0 :=
  ⟨c9_cli_contract_amended.2.2.1 "mc" (by decide) (by decide),
   c9_cli_contract_amended.2.2.2.1 [exampleSuccessSetup] [0]
     (by intro s hs u c; rw [List.mem_singleton] at hs; rw [hs]; rfl)⟩

/-- Claim C4: a unit is in the next stage's registry exactly when the
previous stage's ledger holds a current `completed` record for it; in
particular a unit absent from the previous stage's completed set never
appears in the next stage's registry. -/
theorem c4_dependency_gating (master : Registry) (L : StageLedger)
    (hclosed : ∀ p ∈ L, p.1 ∈ master) (u : UnitId) :
    u ∈ nextRegistry master L ↔
      ∃ r, ledgerGet L u = some r ∧ r.status = Status.completed := by
  rw [nextRegistry]
  constructor
  · intro h
    have h1 := List.mem_filter.mp h
    cases hr : ledgerGet L u with
    | none =>
      rw [hr] at h1
      exact absurd h1.2 (by simp)
    | some r =>
      rw [hr] at h1
      exact ⟨r, rfl, of_decide_eq_true h1.2⟩
  · intro ⟨r, hr, hst⟩
    refine List.mem_filter.mpr ⟨hclosed (u, r) (ledgerGet_some_mem L u r hr), ?_⟩
    rw [hr]
    exact decide_eq_true hst

/-- Witness for C4 at a one-unit master registry whose ledger completed
that unit. -/
theorem c4_dependency_gating_witness :
    0 ∈ nextRegistry [0] [(0, exampleCompletedRecord)] ↔
      ∃ r, ledgerGet [(0, exampleCompletedRecord)] 0 = some r ∧
        r.status = Status.completed :=
  c4_dependency_gating [0] [(0, exampleCompletedRecord)] (by decide) 0

/-- Claim C5: a non-empty explicit process list referencing a unit outside
the eligible registry makes `build` fail with a `ConfigurationError`; and
every configuration error of a stage invocation is raised before any unit
is dispatched and leaves the ledger unchanged. -/
theorem c5_explicit_list_validation :
    (∀ (registry : Registry) (L : StageLedger) (el : List UnitId),
      el ≠ [] → (∃ u ∈ el, u ∉ registry) →
      ∃ u, u ∈ el ∧ u ∉ registry ∧
        build registry L el = Except.error (ConfigurationError.unknownUnit u)) ∧
    (∀ (cfg : ConfigDoc) (adapter : ToolAdapter) (registry : Registry)
      (L : StageLedger) (el : List UnitId) (e : ConfigurationError),
      (invoke cfg adapter registry L el).result = Except.error e →
      (invoke cfg adapter registry L el).ledger = L ∧
      (invoke cfg adapter registry L el).dispatched = []) := by
  constructor
  · intro registry L el _ hbad
    have hsome : (el.find? (fun v => decide (v ∉ registry))).isSome := by
      rw [List.find?_isSome]
      obtain ⟨u, hu, hnr⟩ := hbad
      exact ⟨u, hu, by simp [hnr]⟩
    cases hf : el.find? (fun v => decide (v ∉ registry)) with
    | none => rw [hf] at hsome; simp at hsome
    | some u =>
      have hp := List.find?_some hf
      simp only [decide_eq_true_eq] at hp
      refine ⟨u, List.mem_of_find?_eq_some hf, hp, ?_⟩
      rw [build, hf]
  · intro cfg adapter registry L el e h
    rw [invoke] at h ⊢
    cases hb : build registry L el with
    | error e2 => exact ⟨rfl, rfl⟩
    | ok plist =>
      rw [hb] at h
      have h2 : Except.ok (run cfg adapter L plist).2 = Except.error e := h
      exact absurd h2 (by simp)

/-- Witness for C5 at an explicit process list naming a unit outside the
registry. -/
theorem c5_explicit_list_validation_witness :
    (∃ u, u ∈ [5] ∧ u ∉ ([0] : Registry) ∧
      build [0] [] [5] = Except.error (ConfigurationError.unknownUnit u)) ∧
    ((invoke [] exampleAdapter [0] [] [5]).ledger = [] ∧
      (invoke [] exampleAdapter [0] [] [5]).dispatched = []) :=
  ⟨c5_explicit_list_validation.1 [0] [] [5] (by decide) ⟨5, by decide, by decide⟩,
   c5_explicit_list_validation.2 [] exampleAdapter [0] [] [5]
     (ConfigurationError.unknownUnit 5) rfl⟩

/-- Claim C6: a successfully resolved configuration gives every field the
value of the highest-precedence layer that sets it, in the order built-in
stage defaults, then master project config, then prior persisted stage
config, then explicit overrides; an explicitly overridden field always
takes its override value. -/
theorem c6_merge_precedence (stage : StageSpec) (master prior overrides cfg : ConfigDoc)
    (h : resolve stage master prior overrides = Except.ok cfg) :
    (∀ f, configGet cfg f = mergedGet stage.defaults master prior overrides f) ∧
    (∀ f v, configGet overrides f = some v → configGet cfg f = some v) ∧
    (∀ f v, configGet overrides f = none → configGet prior f = some v →
      configGet cfg f = some v) ∧
    (∀ f v, configGet overrides f = none → configGet prior f = none →
      configGet master f = some v → configGet cfg f = some v) ∧
    (∀ f, configGet overrides f = none → configGet prior f = none →
      configGet master f = none → configGet cfg f = configGet stage.defaults f) := by
  refine ⟨resolve_ok_configGet stage master prior overrides cfg h, ?_, ?_, ?_, ?_⟩
  · intro f v ho
    rw [resolve_ok_configGet stage master prior overrides cfg h f, mergedGet, ho]
  · intro f v ho hp
    rw [resolve_ok_configGet stage master prior overrides cfg h f, mergedGet, ho, hp]
  · intro f v ho hp hm
    rw [resolve_ok_configGet stage master prior overrides cfg h f, mergedGet, ho, hp, hm]
  · intro f ho hp hm
    rw [resolve_ok_configGet stage master prior overrides cfg h f, mergedGet, ho, hp, hm]

/-- Witness for C6: with master setting px to 7 and an override setting px
to 9, the resolved configuration takes the override value. -/
theorem c6_merge_precedence_witness :
    configGet exampleResolved "px" = some "9" :=
  (c6_merge_precedence exampleStage [("px", "7")] [] [("px", "9")] exampleResolved
    rfl).2.1 "px" "9" rfl

/-- Claim C7: when a mandatory field is missing after merging all layers,
`resolve` fails with a `ConfigurationError` naming a missing mandatory
field; and when the built-in defaults set no mandatory field, a successful
resolution draws every mandatory value from an explicit layer (overrides,
prior config or master config), never from a silent default. -/
theorem c7_mandatory_field_validation :
    (∀ (stage : StageSpec) (master prior overrides : ConfigDoc) (f : Field),
      f ∈ stage.mandatory →
      mergedGet stage.defaults master prior overrides f = none →
      ∃ g, g ∈ stage.mandatory ∧
        mergedGet stage.defaults master prior overrides g = none ∧
        resolve stage master prior overrides =
          Except.error (ConfigurationError.missingField g)) ∧
    (∀ (stage : StageSpec) (master prior overrides cfg : ConfigDoc),
      (∀ f ∈ stage.mandatory, configGet stage.defaults f = none) →
      resolve stage master prior overrides = Except.ok cfg →
      ∀ f ∈ stage.mandatory, ∃ v, configGet cfg f = some v ∧
        (configGet overrides f = some v ∨ configGet prior f = some v ∨
          configGet master f = some v)) := by
  constructor
  · intro stage master prior overrides f hf hnone
    have hsome : (stage.mandatory.find?
        (fun g => (mergedGet stage.defaults master prior overrides g).isNone)).isSome := by
      rw [List.find?_isSome]
      exact ⟨f, hf, by simp [hnone]⟩
    cases hfind : stage.mandatory.find?
        (fun g => (mergedGet stage.defaults master prior overrides g).isNone) with
    | none => rw [hfind] at hsome; simp at hsome
    | some g =>
      have hg := List.find?_some hfind
      simp only [Option.isNone_iff_eq_none] at hg
      refine ⟨g, List.mem_of_find?_eq_some hfind, hg, ?_⟩
      rw [resolve, hfind]
  · intro stage master prior overrides cfg hdm hok f hf
    obtain ⟨v, hv⟩ := resolve_ok_no_missing stage master prior overrides cfg hok f hf
    refine ⟨v, by rw [resolve_ok_configGet stage master prior overrides cfg hok f, hv], ?_⟩
    rw [mergedGet] at hv
    cases ho : configGet overrides f with
    | some w =>
      rw [ho] at hv
      have hv2 : some w = some v := hv
      exact Or.inl hv2
    | none =>
      rw [ho] at hv
      cases hp : configGet prior f with
      | some w =>
        rw [hp] at hv
        have hv2 : some w = some v := hv
        exact Or.inr (Or.inl hv2)
      | none =>
        rw [hp] at hv
        cases hm : configGet master f with
        | some w =>
          rw [hm] at hv
          have hv2 : some w = some v := hv
          exact Or.inr (Or.inr hv2)
        | none =>
          rw [hm] at hv
          have hv2 : configGet stage.defaults f = some v := hv
          exact absurd hv2 (by simp [hdm f hf])

/-- Witness for C7: resolving `exampleStage` with all layers empty fails
naming the mandatory px field, and the successful resolution of C6's
layers draws px from the override layer. -/
theorem c7_mandatory_field_validation_witness :
    (∃ g, g ∈ exampleStage.mandatory ∧
      mergedGet exampleStage.defaults [] [] [] g = none ∧
      resolve exampleStage [] [] [] =
        Except.error (ConfigurationError.missingField g)) ∧
    (∃ v, configGet exampleResolved "px" = some v ∧
      (configGet [("px", "9")] "px" = some v ∨ configGet ([] : ConfigDoc) "px" = some v ∨
        configGet [("px", "7")] "px" = some v)) :=
  ⟨c7_mandatory_field_validation.1 exampleStage [] [] [] "px" (by decide) rfl,
   c7_mandatory_field_validation.2 exampleStage [("px", "7")] [] [("px", "9")]
     exampleResolved (by decide) rfl "px" (by decide)⟩

/-- Claim C2: over a process list of N distinct units of which M fail, the
Runner records a terminal outcome for every unit (no unit's failure aborts
the stage), the ledger ends with exactly M `failed` and N−M `completed`
records, the aggregated failure report lists exactly the failed unit ids,
and a subsequent `build` over the same candidate set selects exactly those
M failed units. -/
theorem c2_partial_failure_isolation (cfg : ConfigDoc) (adapter : ToolAdapter)
    (plist : List UnitId) (hnd : plist.Nodup) :
    (∀ u ∈ plist, ledgerGet (run cfg adapter [] plist).1 u =
      some (outcomeRecord cfg adapter u)) ∧
    countStatus (run cfg adapter [] plist).1 Status.failed =
      (plist.filter (fun u => (adapter u cfg).isFailure)).length ∧
    countStatus (run cfg adapter [] plist).1 Status.completed =
      plist.length - (plist.filter (fun u => (adapter u cfg).isFailure)).length ∧
    (run cfg adapter [] plist).2 = plist.filter (fun u => (adapter u cfg).isFailure) ∧
    build plist (run cfg adapter [] plist).1 [] =
      Except.ok (plist.filter (fun u => (adapter u cfg).isFailure)) := by
  have hstruct : (run cfg adapter [] plist).1 =
      plist.reverse.map (fun u => (u, outcomeRecord cfg adapter u)) := by
    rw [run]
    show plist.foldl (processUnit cfg adapter) [] = _
    rw [foldl_processUnit_eq_append cfg adapter plist [] hnd (fun u _ => rfl)]
    simp
  have hget : ∀ u ∈ plist, ledgerGet (run cfg adapter [] plist).1 u =
      some (outcomeRecord cfg adapter u) := by
    intro u hu
    rw [run]
    show ledgerGet (plist.foldl (processUnit cfg adapter) []) u = _
    rw [foldl_processUnit_ledgerGet, if_pos hu]
  refine ⟨hget, ?_, ?_, rfl, ?_⟩
  · rw [hstruct]
    simp only [countStatus]
    rw [length_filter_map_eq]
    simp only [outcomeRecord_status_failed]
    exact (List.Perm.filter _ (List.reverse_perm plist)).length_eq
  · rw [hstruct]
    simp only [countStatus]
    rw [length_filter_map_eq]
    simp only [outcomeRecord_status_completed]
    rw [(List.Perm.filter _ (List.reverse_perm plist)).length_eq]
    have hpart :=
      length_filter_add_length_filter_not (fun u => (adapter u cfg).isFailure) plist
    omega
  · rw [build_nil_elist]
    refine congrArg Except.ok (List.filter_congr ?_)
    intro u hu
    exact needsRun_outcome cfg adapter _ u (hget u hu)

/-- Witness for C2 over units 0 and 1 with unit 0 failing. -/
theorem c2_partial_failure_isolation_witness :
    countStatus (run [] exampleAdapter [] [0, 1]).1 Status.failed = 1 ∧
    countStatus (run [] exampleAdapter [] [0, 1]).1 Status.completed = 1 ∧
    build [0, 1] (run [] exampleAdapter [] [0, 1]).1 [] = Except.ok [0] := by
  have h := c2_partial_failure_isolation [] exampleAdapter [0, 1] (by decide)
  refine ⟨?_, ?_, ?_⟩
  · rw [h.2.1]; rfl
  · rw [h.2.2.1]; rfl
  · rw [h.2.2.2.2]; rfl

/-- Claim C1: `build` excludes every unit whose current StageRecord is
`completed`; and re-running a stage after a fully successful run, with
unchanged configuration and unchanged ledger (its completed records not
stale), yields an empty process list. -/
theorem c1_process_list_idempotence :
    (∀ (registry : Registry) (L : StageLedger) (el out : List UnitId) (u : UnitId)
      (r : StageRecord),
      build registry L el = Except.ok out →
      ledgerGet L u = some r → r.status = Status.completed → u ∉ out) ∧
    (∀ (cosmetic : List Field) (cfg : ConfigDoc) (adapter : ToolAdapter)
      (registry : Registry) (L : StageLedger) (plist : List UnitId),
      (∀ p ∈ L, p.2.status = Status.completed →
        isStale cosmetic p.2.paramsSnapshot cfg = false) →
      build registry L [] = Except.ok plist →
      (∀ u ∈ plist, (adapter u cfg).isFailure = false) →
      build registry (applyStalenessCheck cosmetic cfg (run cfg adapter L plist).1) [] =
        Except.ok ([] : List UnitId)) := by
  constructor
  · intro registry L el out u r hb hr hst hu
    have hneed := (mem_build_ok registry L el out hb u hu).2
    rw [needsRun, hr] at hneed
    simp [hst] at hneed
  · intro cosmetic cfg adapter registry L plist hclean hb hsucc
    rw [build_nil_elist] at hb
    cases hb
    rw [build_nil_elist]
    refine congrArg Except.ok (List.filter_eq_nil_iff.mpr ?_)
    intro u hu hneed
    by_cases hin : u ∈ registry.filter (needsRun L)
    · have hsu := hsucc u hin
      have hget : ledgerGet (run cfg adapter L (registry.filter (needsRun L))).1 u =
          some (outcomeRecord cfg adapter u) := by
        rw [run]
        show ledgerGet ((registry.filter (needsRun L)).foldl (processUnit cfg adapter) L) u = _
        rw [foldl_processUnit_ledgerGet, if_pos hin]
      cases ha : adapter u cfg with
      | failure k msg =>
        rw [ha] at hsu
        simp [ToolOutcome.isFailure] at hsu
      | success arts =>
        have hrec : outcomeRecord cfg adapter u =
            { status := Status.completed, artifacts := arts, errorDetail := none,
              paramsSnapshot := cfg } := by
          rw [outcomeRecord, ha]
        rw [needsRun, ledgerGet_applyStalenessCheck, hget, hrec] at hneed
        simp [demoteRecord, isStale_self] at hneed
    · have hnr : needsRun L u = false := by
        by_contra hh
        exact hin (List.mem_filter.mpr ⟨hu, by simpa using hh⟩)
      have hsame : ledgerGet (run cfg adapter L (registry.filter (needsRun L))).1 u =
          ledgerGet L u := by
        rw [run]
        show ledgerGet ((registry.filter (needsRun L)).foldl (processUnit cfg adapter) L) u = _
        rw [foldl_processUnit_ledgerGet, if_neg hin]
      cases hr : ledgerGet L u with
      | none =>
        rw [needsRun, hr] at hnr
        simp at hnr
      | some r =>
        have hrclean : demoteRecord cosmetic cfg r = r :=
          demoteRecord_eq_self cosmetic cfg r
            (fun hc => hclean (u, r) (ledgerGet_some_mem L u r hr) hc)
        rw [needsRun, ledgerGet_applyStalenessCheck, hsame, hr] at hneed
        rw [needsRun, hr] at hnr
        have hnr2 : (decide (r.status = Status.pending) ||
            decide (r.status = Status.failed)) = false := hnr
        simp only [Option.map_some', hrclean] at hneed
        rw [hnr2] at hneed
        exact Bool.false_ne_true hneed

/-- Witness for C1: a completed unit is excluded from the process list, and
after an all-success run over a fresh ledger the rebuilt process list is
empty. -/
theorem c1_process_list_idempotence_witness :
    (0 ∉ ([] : List UnitId)) ∧
    build [0] (applyStalenessCheck [] [] (run [] allSuccessAdapter [] [0]).1) [] =
      Except.ok ([] : List UnitId) :=
  ⟨c1_process_list_idempotence.1 [0] [(0, exampleCompletedRecord)] [] [] 0
      exampleCompletedRecord rfl rfl rfl,
   c1_process_list_idempotence.2 [] [] allSuccessAdapter [0] [] [0]
      (by simp) rfl (fun u _ => rfl)⟩

/-- Claim C3: the staleness check on `load` demotes to `pending` exactly
the `completed` records whose snapshot is stale and changes no other
record; consequently, over an all-completed ledger covering the registry,
the rebuilt process list contains exactly the units with stale snapshots
and no others. -/
theorem c3_stale_parameter_invalidation :
    (∀ (cosmetic : List Field) (cfg : ConfigDoc) (L : StageLedger) (u : UnitId),
      (ledgerGet L u = none → ledgerGet (applyStalenessCheck cosmetic cfg L) u = none) ∧
      (∀ r, ledgerGet L u = some r →
        (r.status = Status.completed → isStale cosmetic r.paramsSnapshot cfg = true →
          ledgerGet (applyStalenessCheck cosmetic cfg L) u =
            some { r with status := Status.pending }) ∧
        ((r.status = Status.completed → isStale cosmetic r.paramsSnapshot cfg = false) →
          ledgerGet (applyStalenessCheck cosmetic cfg L) u = some r))) ∧
    (∀ (cosmetic : List Field) (cfg : ConfigDoc) (registry : Registry) (L : StageLedger)
      (plist : List UnitId) (u : UnitId),
      (∀ p ∈ L, p.2.status = Status.completed) →
      (∀ w ∈ registry, ledgerGet L w ≠ none) →
      build registry (applyStalenessCheck cosmetic cfg L) [] = Except.ok plist →
      (u ∈ plist ↔ u ∈ registry ∧
        ∃ r, ledgerGet L u = some r ∧ isStale cosmetic r.paramsSnapshot cfg = true)) := by
  constructor
  · intro cosmetic cfg L u
    refine ⟨?_, ?_⟩
    · intro h
      rw [ledgerGet_applyStalenessCheck, h]
      rfl
    · intro r hr
      refine ⟨?_, ?_⟩
      · intro hc hs
        rw [ledgerGet_applyStalenessCheck, hr, Option.map_some',
          demoteRecord_stale cosmetic cfg r hc hs]
      · intro hcl
        rw [ledgerGet_applyStalenessCheck, hr, Option.map_some',
          demoteRecord_eq_self cosmetic cfg r hcl]
  · intro cosmetic cfg registry L plist u hcomp hcov hb
    rw [build_nil_elist] at hb
    cases hb
    rw [List.mem_filter]
    constructor
    · intro ⟨humem, hneed⟩
      refine ⟨humem, ?_⟩
      cases hr : ledgerGet L u with
      | none => exact absurd hr (hcov u humem)
      | some r =>
        refine ⟨r, rfl, ?_⟩
        have hc : r.status = Status.completed :=
          hcomp (u, r) (ledgerGet_some_mem L u r hr)
        by_cases hs : isStale cosmetic r.paramsSnapshot cfg = true
        · exact hs
        · have hs2 : isStale cosmetic r.paramsSnapshot cfg = false :=
            Bool.not_eq_true _ ▸ Bool.eq_false_iff.mpr hs
          have hun : demoteRecord cosmetic cfg r = r :=
            demoteRecord_eq_self cosmetic cfg r (fun _ => hs2)
          rw [needsRun, ledgerGet_applyStalenessCheck, hr, Option.map_some', hun] at hneed
          have hneed2 : (decide (r.status = Status.pending) ||
              decide (r.status = Status.failed)) = true := hneed
          rw [hc] at hneed2
          simp at hneed2
    · intro ⟨humem, r, hr, hs⟩
      refine ⟨humem, ?_⟩
      have hc : r.status = Status.completed :=
        hcomp (u, r) (ledgerGet_some_mem L u r hr)
      rw [needsRun, ledgerGet_applyStalenessCheck, hr, Option.map_some',
        demoteRecord_stale cosmetic cfg r hc hs]
      rfl

/-- Witness for C3 over a two-unit all-completed ledger where only unit 0's
snapshot disagrees with the new configuration. -/
theorem c3_stale_parameter_invalidation_witness :
    0 ∈ [0] ↔ 0 ∈ [0, 1] ∧
      ∃ r, ledgerGet [(0, examplePxRecord), (1, exampleCompletedRecord)] 0 = some r ∧
        isStale [] r.paramsSnapshot [] = true :=
  c3_stale_parameter_invalidation.2 [] [] [0, 1]
    [(0, examplePxRecord), (1, exampleCompletedRecord)] [0] 0
    (by decide) (by decide) rfl

/-- Claim C8: `run_all` executes stages strictly in declared order — a
stage with an empty input registry is skipped with a warning and the
sequence proceeds; a stage whose aggregated failure count equals its full
candidate set ends the sequence there; any other failure count lets the
sequence proceed to the next stage over the restricted registry; and an
early stop happens only at a totally failed stage. -/
theorem c8_sequencer_control_flow :
    (∀ (s : StageSetup) (rest : List StageSetup),
      run_all (s :: rest) [] =
        StageSummary.skippedEmptyRegistry emptyRegistryWarning :: run_all rest []) ∧
    (∀ (s : StageSetup) (rest : List StageSetup) (registry : Registry),
      registry ≠ [] →
      (run s.cfg s.adapter [] registry).2.length = registry.length →
      run_all (s :: rest) registry =
        [StageSummary.ran (run s.cfg s.adapter [] registry).2 registry.length]) ∧
    (∀ (s : StageSetup) (rest : List StageSetup) (registry : Registry),
      registry ≠ [] →
      (run s.cfg s.adapter [] registry).2.length ≠ registry.length →
      run_all (s :: rest) registry =
        StageSummary.ran (run s.cfg s.adapter [] registry).2 registry.length ::
          run_all rest (nextRegistry registry (run s.cfg s.adapter [] registry).1)) ∧
    (∀ (stages : List StageSetup) (registry : Registry),
      (run_all stages registry).length < stages.length →
      ∃ fails n, (run_all stages registry).getLast? = some (StageSummary.ran fails n) ∧
        fails.length = n ∧ 0 < n) := by
  refine ⟨?_, ?_, ?_, ?_⟩
  · intro s rest
    rfl
  · intro s rest registry hne hlen
    rw [run_all, if_neg (by simp [List.isEmpty_iff, hne]), if_pos hlen]
  · intro s rest registry hne hlen
    rw [run_all, if_neg (by simp [List.isEmpty_iff, hne]), if_neg hlen]
  · intro stages
    induction stages with
    | nil =>
      intro reg h
      rw [run_all] at h
      simp at h
    | cons s rest ih =>
      intro reg h
      rw [run_all] at h ⊢
      by_cases hre : reg.isEmpty = true
      · rw [if_pos hre] at h ⊢
        rw [List.length_cons, List.length_cons] at h
        have hlt : (run_all rest reg).length < rest.length := by omega
        obtain ⟨fails, n, hl, hfn, hpos⟩ := ih reg hlt
        cases hrest : run_all rest reg with
        | nil =>
          rw [hrest] at hl
          simp at hl
        | cons y t =>
          rw [List.getLast?_cons_cons, ← hrest]
          exact ⟨fails, n, hl, hfn, hpos⟩
      · rw [if_neg hre] at h ⊢
        by_cases hlen : (run s.cfg s.adapter [] reg).2.length = reg.length
        · rw [if_pos hlen] at h ⊢
          refine ⟨(run s.cfg s.adapter [] reg).2, reg.length,
            List.getLast?_singleton _, hlen, ?_⟩
          have : reg ≠ [] := fun he => hre (by rw [he]; rfl)
          exact List.length_pos.mpr this
        · rw [if_neg hlen] at h ⊢
          rw [List.length_cons, List.length_cons] at h
          have hlt : (run_all rest
              (nextRegistry reg (run s.cfg s.adapter [] reg).1)).length < rest.length := by
            omega
          obtain ⟨fails, n, hl, hfn, hpos⟩ :=
            ih (nextRegistry reg (run s.cfg s.adapter [] reg).1) hlt
          cases hrest : run_all rest (nextRegistry reg (run s.cfg s.adapter [] reg).1) with
          | nil =>
            rw [hrest] at hl
            simp at hl
          | cons y t =>
            rw [List.getLast?_cons_cons, ← hrest]
            exact ⟨fails, n, hl, hfn, hpos⟩

/-- Witness for C8: a one-stage pipeline over an empty registry is skipped,
and a one-stage pipeline whose only unit fails is a total failure that ends
the sequence with that single summary. -/
theorem c8_sequencer_control_flow_witness :
    run_all [exampleSuccessSetup] [] =
      [StageSummary.skippedEmptyRegistry emptyRegistryWarning] ∧
    run_all [exampleFailSetup] [0] = [StageSummary.ran [0] 1] := by
  constructor
  · rw [c8_sequencer_control_flow.1 exampleSuccessSetup []]
    rfl
  · rw [c8_sequencer_control_flow.2.1 exampleFailSetup [] [0] (by decide) rfl]
    rfl

end Ot2Rec
